import Mathlib

/-!
Shallow embedding of the account service of the boxing-tracker app
(`server.js`): the user record schema, the validation regexes of the
register handler, and the two HTTP handlers `POST /api/login` and
`POST /api/register`, modelled as pure functions from a request and the
user store (a list of user records, queried front to back as
`User.findOne` does) to a response and the resulting store.

JavaScript field access on the JSON body yields either a string or
`undefined`; both `undefined` and the empty string are falsy under `!x`.
Request fields are therefore `Option String` and the guard `!x` is the
function `falsy` below.
-/

namespace BoxingTracker

/-- The character class `[a-zA-Z]` of the registration regexes
(ASCII codes 65-90 and 97-122). -/
def isAlpha (c : Char) : Bool :=
  (65 ≤ c.toNat && c.toNat ≤ 90) || (97 ≤ c.toNat && c.toNat ≤ 122)

/-- The character class `[0-9]` (ASCII codes 48-57). -/
def isDigitChar (c : Char) : Bool :=
  48 ≤ c.toNat && c.toNat ≤ 57

/-- The character class `\w` = `[a-zA-Z0-9_]` (underscore is ASCII 95). -/
def isWordChar (c : Char) : Bool :=
  isAlpha c || isDigitChar c || c.toNat == 95

/-- The character class `['-]` of `lnameRegex`: apostrophe (ASCII 39)
or hyphen (ASCII 45). -/
def isLnameSep (c : Char) : Bool :=
  c.toNat == 39 || c.toNat == 45

/-- The character class `[\w-\.]` of the local part of `emailRegex`:
word characters, hyphen and dot. -/
def isLocalChar (c : Char) : Bool :=
  isWordChar c || c.toNat == 45 || c.toNat == 46

/-- The character class `[\w-]` of the domain label of `emailRegex`. -/
def isLabelChar (c : Char) : Bool :=
  isWordChar c || c.toNat == 45

/-- `fnameRegex = /^[a-zA-Z]+$/`: one or more letters. -/
def fnameMatch (s : String) : Bool :=
  !s.data.isEmpty && s.data.all isAlpha

/-- Deterministic automaton for `lnameRegex = /^[a-zA-Z]+(['-][a-zA-Z]+)*$/`.
The flag records whether the last character read was a letter (so a
separator or the end of input are currently allowed). -/
def lnameAux : Bool → List Char → Bool
  | inWord, [] => inWord
  | inWord, c :: cs =>
    if isAlpha c then lnameAux true cs
    else if inWord && isLnameSep c then lnameAux false cs
    else false

/-- `lnameRegex = /^[a-zA-Z]+(['-][a-zA-Z]+)*$/`. -/
def lnameMatch (s : String) : Bool :=
  lnameAux false s.data

/-- Split a character list at every occurrence of `sep`
(the separators are dropped, empty pieces are kept). -/
def splitOnChar (sep : Char) : List Char → List (List Char)
  | [] => [[]]
  | c :: cs =>
    if c == sep then [] :: splitOnChar sep cs
    else
      match splitOnChar sep cs with
      | [] => [[c]]
      | p :: ps => (c :: p) :: ps

/-- `emailRegex = /^[\w-\.]+@([\w-]+\.)[\w]{2,6}$/`.
Neither side of the `@` may contain an `@`, the label may not contain a
dot and the top-level domain may not contain a dot, so a match is
exactly: one `@`, whose left part is a nonempty run of local characters,
and whose right part splits at its single dot into a nonempty run of
label characters and a 2-to-6 character run of word characters. -/
def emailMatch (l : List Char) : Bool :=
  match splitOnChar '@' l with
  | [loc, dom] =>
    !loc.isEmpty && loc.all isLocalChar &&
      (match splitOnChar '.' dom with
       | [lab, tld] =>
         !lab.isEmpty && lab.all isLabelChar &&
           decide (2 ≤ tld.length) && decide (tld.length ≤ 6) &&
           tld.all isWordChar
       | _ => false)
  | _ => false

/-- `emailRegex` applied to a string. -/
def emailTest (s : String) : Bool :=
  emailMatch s.data

/-- `phoneNumberRegex = /^[0-9]{10}$/`: exactly ten digits. -/
def phoneMatch (s : String) : Bool :=
  s.data.length == 10 && s.data.all isDigitChar

/-- A user document of the `users` collection (the Mongoose schema of
`server.js`: six required string fields). -/
structure UserRecord where
  firstName : String
  lastName : String
  username : String
  password : String
  email : String
  phone : String
deriving DecidableEq, Repr

/-- Body of `POST /api/login`. -/
structure LoginReq where
  username : Option String
  password : Option String
deriving DecidableEq, Repr

/-- Body of `POST /api/register`. -/
structure RegisterReq where
  username : Option String
  password : Option String
  firstName : Option String
  lastName : Option String
  email : Option String
  phone : Option String
deriving DecidableEq, Repr

/-- The JavaScript guard `!x` on a JSON string field: true when the
field is absent (`undefined`) or the empty string. -/
def falsy : Option String → Bool
  | none => true
  | some s => s.data.isEmpty

/-- The string value of a field that passed the `!x` guard. -/
def fieldVal (x : Option String) : String :=
  x.getD ""

/-- A JSON response body: either a user document or `{ message }`. -/
inductive Body where
  | user : UserRecord → Body
  | message : String → Body
deriving DecidableEq, Repr

/-- An HTTP response: status code plus JSON body. -/
structure Response where
  status : Nat
  body : Body
deriving DecidableEq, Repr

/-- Abbreviation for an error response `{ message }`. -/
def err (status : Nat) (msg : String) : Response :=
  ⟨status, Body.message msg⟩

/-- `User.findOne({ username })`: first record of the store whose
`username` field equals the argument. -/
def findOne (store : List UserRecord) (uname : String) : Option UserRecord :=
  store.find? (fun u => u.username == uname)

/-- The `newUser` document that the register handler builds from the
(validated) request fields. -/
def mkUser (req : RegisterReq) : UserRecord :=
  { firstName := fieldVal req.firstName
    lastName := fieldVal req.lastName
    username := fieldVal req.username
    password := fieldVal req.password
    email := fieldVal req.email
    phone := fieldVal req.phone }

/-- Handler of `POST /api/login` (`server.js` lines 93-126), as a pure
function of the request and the store.  The store is returned unchanged:
the handler only reads it. -/
def login (req : LoginReq) (store : List UserRecord) :
    Response × List UserRecord :=
  if falsy req.username || falsy req.password then
    (err 400 "Username and password are required", store)
  else
    match findOne store (fieldVal req.username) with
    | none => (err 404 "User not found", store)
    | some u =>
      if u.password == fieldVal req.password then
        (⟨200, Body.user u⟩, store)
      else
        (err 401 "Invalid credentials", store)

/-- Handler of `POST /api/register` (`server.js` lines 139-236): the
fixed validation sequence, then the duplicate-username lookup, then the
insert (modelled as appending to the store, matching `findOne` returning
the earliest-inserted match). -/
def register (req : RegisterReq) (store : List UserRecord) :
    Response × List UserRecord :=
  if falsy req.firstName then
    (err 400 "First name is required", store)
  else if !fnameMatch (fieldVal req.firstName) then
    (err 400 "First Name should contain only letters", store)
  else if falsy req.lastName then
    (err 400 "Last Name is required", store)
  else if !lnameMatch (fieldVal req.lastName) then
    (err 400 "Last Name should contain only letters", store)
  else if falsy req.email then
    (err 400 "Email is required", store)
  else if !emailTest (fieldVal req.email) then
    (err 400 "Email format is invalid", store)
  else if falsy req.phone then
    (err 400 "Phone Number is required", store)
  else if !phoneMatch (fieldVal req.phone) then
    (err 400 "Phone Number must be 10 digits", store)
  else if falsy req.username || falsy req.password then
    (err 400 "Username and password are required", store)
  else
    match findOne store (fieldVal req.username) with
    | some _ => (err 400 "Username already taken", store)
    | none => (⟨201, Body.user (mkUser req)⟩, store ++ [mkUser req])

/-- All nine validation guards of `register` pass. -/
def passesValidation (req : RegisterReq) : Bool :=
  !falsy req.firstName && fnameMatch (fieldVal req.firstName) &&
  !falsy req.lastName && lnameMatch (fieldVal req.lastName) &&
  !falsy req.email && emailTest (fieldVal req.email) &&
  !falsy req.phone && phoneMatch (fieldVal req.phone) &&
  !falsy req.username && !falsy req.password

/-- One API call: the server handles requests sequentially. -/
inductive Op where
  | login : LoginReq → Op
  | register : RegisterReq → Op

/-- Effect of one API call on the store. -/
def step (store : List UserRecord) : Op → List UserRecord
  | Op.login req => (login req store).2
  | Op.register req => (register req store).2

/-- Store reached from the empty store by a sequence of API calls. -/
def run (ops : List Op) : List UserRecord :=
  ops.foldl step []

/-- All usernames of the store are pairwise distinct. -/
def distinctUsernames (store : List UserRecord) : Prop :=
  store.Pairwise (fun a b => a.username ≠ b.username)

/-- The registration request of the spec's test scenario:
`{firstName:"Jane", lastName:"Doe", username:"jdoe", password:"pw1",
email:"jane@doe.com", phone:"5551234567"}`. -/
def sampleReq : RegisterReq :=
  { username := some "jdoe"
    password := some "pw1"
    firstName := some "Jane"
    lastName := some "Doe"
    email := some "jane@doe.com"
    phone := some "5551234567" }

/-! ### Helper lemmas -/

theorem falsy_some_nil : falsy (some "") = true := by
  decide

theorem falsy_none : falsy none = true :=
  rfl

theorem login_store_unchanged (req : LoginReq) (store : List UserRecord) :
    (login req store).2 = store := by
  unfold login
  split
  · rfl
  · split
    · rfl
    · split <;> rfl

theorem register_cases (req : RegisterReq) (store : List UserRecord) :
    (register req store).2 = store ∨
      ((register req store).1 = ⟨201, Body.user (mkUser req)⟩ ∧
        findOne store (fieldVal req.username) = none ∧
        (register req store).2 = store ++ [mkUser req]) := by
  unfold register
  iterate 9
    split
    · exact Or.inl rfl
  split
  · exact Or.inl rfl
  · rename_i hn
    exact Or.inr ⟨rfl, hn, rfl⟩

theorem findOne_eq_none_iff (store : List UserRecord) (un : String) :
    findOne store un = none ↔ ∀ u ∈ store, u.username ≠ un := by
  simp [findOne, List.find?_eq_none]

theorem findOne_append_none {store : List UserRecord} {un : String}
    (h : findOne store un = none) (u : UserRecord) :
    findOne (store ++ [u]) un =
      if u.username == un then some u else none := by
  unfold findOne at *
  rw [List.find?_append, h]
  cases hc : (u.username == un) <;> simp [List.find?, hc]

theorem passesValidation_iff (req : RegisterReq) :
    passesValidation req = true ↔
      (falsy req.firstName = false ∧ fnameMatch (fieldVal req.firstName) = true ∧
       falsy req.lastName = false ∧ lnameMatch (fieldVal req.lastName) = true ∧
       falsy req.email = false ∧ emailTest (fieldVal req.email) = true ∧
       falsy req.phone = false ∧ phoneMatch (fieldVal req.phone) = true ∧
       falsy req.username = false ∧ falsy req.password = false) := by
  simp [passesValidation, Bool.and_eq_true, Bool.not_eq_true', and_assoc]

theorem register_valid_none (req : RegisterReq) (store : List UserRecord)
    (hval : passesValidation req = true)
    (hnew : findOne store (fieldVal req.username) = none) :
    register req store = (⟨201, Body.user (mkUser req)⟩, store ++ [mkUser req]) := by
  obtain ⟨h1, h2, h3, h4, h5, h6, h7, h8, h9, h10⟩ := (passesValidation_iff req).mp hval
  simp [register, h1, h2, h3, h4, h5, h6, h7, h8, h9, h10, hnew]

theorem register_valid_dup (req : RegisterReq) (store : List UserRecord)
    (hval : passesValidation req = true)
    {u : UserRecord} (hdup : findOne store (fieldVal req.username) = some u) :
    register req store = (err 400 "Username already taken", store) := by
  obtain ⟨h1, h2, h3, h4, h5, h6, h7, h8, h9, h10⟩ := (passesValidation_iff req).mp hval
  simp [register, h1, h2, h3, h4, h5, h6, h7, h8, h9, h10, hdup]

theorem step_preserves_distinct (store : List UserRecord) (op : Op)
    (h : distinctUsernames store) : distinctUsernames (step store op) := by
  cases op with
  | login req =>
    rw [step, login_store_unchanged]
    exact h
  | register req =>
    rcases register_cases req store with hsame | ⟨-, hnone, happ⟩
    · rw [step, hsame]
      exact h
    · rw [step, happ]
      rw [distinctUsernames, List.pairwise_append]
      refine ⟨h, by simp, ?_⟩
      intro a ha b hb
      simp only [List.mem_singleton] at hb
      subst hb
      have hx := (findOne_eq_none_iff store (fieldVal req.username)).mp hnone a ha
      simpa [mkUser] using hx

theorem foldl_step_distinct (ops : List Op) :
    ∀ store : List UserRecord,
      distinctUsernames store → distinctUsernames (ops.foldl step store) := by
  induction ops with
  | nil => exact fun store h => h
  | cons op rest ih =>
    intro store h
    exact ih _ (step_preserves_distinct store op h)

theorem isAlpha_false_of (c : Char)
    (h : isDigitChar c = true ∨ c.toNat = 32) : isAlpha c = false := by
  rcases h with h | h
  · simp only [isDigitChar, Bool.and_eq_true, decide_eq_true_eq] at h
    simp only [isAlpha, Bool.or_eq_false_iff, Bool.and_eq_false_iff,
      decide_eq_false_iff_not]
    omega
  · simp only [isAlpha, Bool.or_eq_false_iff, Bool.and_eq_false_iff,
      decide_eq_false_iff_not, h]
    omega

theorem fname_digit_or_space_rejected (req : RegisterReq) (store : List UserRecord)
    (s : String) (hf : req.firstName = some s)
    (h : s.data.any (fun c => isDigitChar c || c.toNat == 32) = true) :
    (register req store).1 = err 400 "First Name should contain only letters" := by
  obtain ⟨c, hmem, hc⟩ := List.any_eq_true.mp h
  have hc2 : isDigitChar c = true ∨ c.toNat = 32 := by
    simp only [Bool.or_eq_true] at hc
    rcases hc with h1 | h1
    · exact Or.inl h1
    · exact Or.inr (by simpa using h1)
  have halpha := isAlpha_false_of c hc2
  have hne : s.data ≠ [] := by
    intro hnil
    rw [hnil] at hmem
    exact (List.not_mem_nil c) hmem
  have hfal : falsy (some s) = false := by
    show s.data.isEmpty = false
    cases hd : s.data with
    | nil => exact absurd hd hne
    | cons a as => rfl
  have hall : s.data.all isAlpha = false := by
    rw [List.all_eq_false]
    exact ⟨c, hmem, by simp [halpha]⟩
  have hfm : fnameMatch s = false := by
    simp [fnameMatch, hall]
  simp [register, hf, fieldVal, hfal, hfm]

theorem splitOnChar_ne_nil (sep : Char) (l : List Char) :
    splitOnChar sep l ≠ [] := by
  cases l with
  | nil => simp [splitOnChar]
  | cons c cs =>
    simp only [splitOnChar]
    split
    · simp
    · split <;> simp

theorem splitOnChar_one (sep : Char) :
    ∀ l x : List Char, splitOnChar sep l = [x] → l = x := by
  intro l
  induction l with
  | nil =>
    intro x h
    simp only [splitOnChar, List.cons.injEq, and_true] at h
    exact h
  | cons c cs ih =>
    intro x h
    simp only [splitOnChar] at h
    split at h
    · injection h with h1 h2
      exact absurd h2 (splitOnChar_ne_nil sep cs)
    · split at h
      · rename_i heq
        exact absurd heq (splitOnChar_ne_nil sep cs)
      · rename_i p ps heq
        injection h with h1 h2
        subst h2
        rw [ih p heq]
        exact h1

theorem splitOnChar_two (sep : Char) :
    ∀ l a b : List Char, splitOnChar sep l = [a, b] → l = a ++ sep :: b := by
  intro l
  induction l with
  | nil =>
    intro a b h
    simp [splitOnChar] at h
  | cons c cs ih =>
    intro a b h
    simp only [splitOnChar] at h
    split at h
    · rename_i hc
      injection h with h1 h2
      have hcs := splitOnChar_one sep cs b h2
      have hceq : c = sep := by simpa using hc
      rw [← h1, hceq, hcs]
      rfl
    · split at h
      · rename_i heq
        exact absurd heq (splitOnChar_ne_nil sep cs)
      · rename_i p ps heq
        injection h with h1 h2
        subst h2
        rw [← h1, ih p b heq]
        rfl

theorem emailMatch_decomp (l : List Char) (h : emailMatch l = true) :
    ∃ loc lab tld : List Char,
      l = loc ++ '@' :: (lab ++ '.' :: tld) ∧
      loc ≠ [] ∧ loc.all isLocalChar = true ∧
      lab ≠ [] ∧ lab.all isLabelChar = true ∧
      2 ≤ tld.length ∧ tld.length ≤ 6 ∧ tld.all isWordChar = true := by
  unfold emailMatch at h
  split at h
  · rename_i loc dom heq
    split at h
    · rename_i lab tld heq2
      simp only [Bool.and_eq_true] at h
      obtain ⟨⟨hloc, hlocall⟩, ⟨⟨⟨⟨hlab, hlaball⟩, htl⟩, htu⟩, htall⟩⟩ := h
      have hloc2 : loc ≠ [] := by
        intro he
        rw [he] at hloc
        simp at hloc
      have hlab2 : lab ≠ [] := by
        intro he
        rw [he] at hlab
        simp at hlab
      refine ⟨loc, lab, tld, ?_, hloc2, hlocall, hlab2, hlaball,
        of_decide_eq_true htl, of_decide_eq_true htu, htall⟩
      rw [splitOnChar_two _ l loc dom heq, splitOnChar_two _ dom lab tld heq2]
    · exact absurd h (by simp)
  · exact absurd h (by simp)

/-! ### Claim theorems -/

/-- C1: a register request that passes validation and whose username is
not yet in the store returns 201 with the new record, and a subsequent
login with the same username and password on the resulting store returns
200 with a record whose six fields are exactly the registered ones. -/
theorem register_login_roundtrip (req : RegisterReq) (store : List UserRecord)
    (hval : passesValidation req = true)
    (hnew : findOne store (fieldVal req.username) = none) :
    register req store = (⟨201, Body.user (mkUser req)⟩, store ++ [mkUser req]) ∧
    login ⟨req.username, req.password⟩ (register req store).2 =
      (⟨200, Body.user (mkUser req)⟩, store ++ [mkUser req]) ∧
    mkUser req =
      { firstName := fieldVal req.firstName
        lastName := fieldVal req.lastName
        username := fieldVal req.username
        password := fieldVal req.password
        email := fieldVal req.email
        phone := fieldVal req.phone } := by
  have hreg := register_valid_none req store hval hnew
  obtain ⟨h1, h2, h3, h4, h5, h6, h7, h8, h9, h10⟩ := (passesValidation_iff req).mp hval
  refine ⟨hreg, ?_, rfl⟩
  rw [hreg]
  have hfind := findOne_append_none hnew (mkUser req)
  simp only [mkUser, beq_self_eq_true, if_true] at hfind
  simp [login, h9, h10, hfind, mkUser]

/-- C1 witness: the spec's Jane Doe scenario on the empty store. -/
theorem register_login_roundtrip_witness :
    register sampleReq [] =
      (⟨201, Body.user (mkUser sampleReq)⟩, [] ++ [mkUser sampleReq]) ∧
    login ⟨sampleReq.username, sampleReq.password⟩ (register sampleReq []).2 =
      (⟨200, Body.user (mkUser sampleReq)⟩, [] ++ [mkUser sampleReq]) ∧
    mkUser sampleReq =
      { firstName := fieldVal sampleReq.firstName
        lastName := fieldVal sampleReq.lastName
        username := fieldVal sampleReq.username
        password := fieldVal sampleReq.password
        email := fieldVal sampleReq.email
        phone := fieldVal sampleReq.phone } :=
  register_login_roundtrip sampleReq [] (by decide) rfl

/-- C2: the register handler validates in the fixed order firstName,
lastName, email, phone, then username/password, presence before format,
and answers with the 400 message of the first failing check; once every
check passes the outcome is only the duplicate-username 400 or a 201. -/
theorem register_validation_order (req : RegisterReq) (store : List UserRecord) :
    (falsy req.firstName = true →
      (register req store).1 = err 400 "First name is required") ∧
    (falsy req.firstName = false →
      fnameMatch (fieldVal req.firstName) = false →
      (register req store).1 = err 400 "First Name should contain only letters") ∧
    (falsy req.firstName = false →
      fnameMatch (fieldVal req.firstName) = true →
      falsy req.lastName = true →
      (register req store).1 = err 400 "Last Name is required") ∧
    (falsy req.firstName = false →
      fnameMatch (fieldVal req.firstName) = true →
      falsy req.lastName = false →
      lnameMatch (fieldVal req.lastName) = false →
      (register req store).1 = err 400 "Last Name should contain only letters") ∧
    (falsy req.firstName = false →
      fnameMatch (fieldVal req.firstName) = true →
      falsy req.lastName = false →
      lnameMatch (fieldVal req.lastName) = true →
      falsy req.email = true →
      (register req store).1 = err 400 "Email is required") ∧
    (falsy req.firstName = false →
      fnameMatch (fieldVal req.firstName) = true →
      falsy req.lastName = false →
      lnameMatch (fieldVal req.lastName) = true →
      falsy req.email = false →
      emailTest (fieldVal req.email) = false →
      (register req store).1 = err 400 "Email format is invalid") ∧
    (falsy req.firstName = false →
      fnameMatch (fieldVal req.firstName) = true →
      falsy req.lastName = false →
      lnameMatch (fieldVal req.lastName) = true →
      falsy req.email = false →
      emailTest (fieldVal req.email) = true →
      falsy req.phone = true →
      (register req store).1 = err 400 "Phone Number is required") ∧
    (falsy req.firstName = false →
      fnameMatch (fieldVal req.firstName) = true →
      falsy req.lastName = false →
      lnameMatch (fieldVal req.lastName) = true →
      falsy req.email = false →
      emailTest (fieldVal req.email) = true →
      falsy req.phone = false →
      phoneMatch (fieldVal req.phone) = false →
      (register req store).1 = err 400 "Phone Number must be 10 digits") ∧
    (falsy req.firstName = false →
      fnameMatch (fieldVal req.firstName) = true →
      falsy req.lastName = false →
      lnameMatch (fieldVal req.lastName) = true →
      falsy req.email = false →
      emailTest (fieldVal req.email) = true →
      falsy req.phone = false →
      phoneMatch (fieldVal req.phone) = true →
      (falsy req.username || falsy req.password) = true →
      (register req store).1 = err 400 "Username and password are required") ∧
    (passesValidation req = true →
      (register req store).1 = err 400 "Username already taken" ∨
        (register req store).1 = ⟨201, Body.user (mkUser req)⟩) := by
  refine ⟨fun h1 => by simp [register, h1],
    fun h1 h2 => by simp [register, h1, h2],
    fun h1 h2 h3 => by simp [register, h1, h2, h3],
    fun h1 h2 h3 h4 => by simp [register, h1, h2, h3, h4],
    fun h1 h2 h3 h4 h5 => by simp [register, h1, h2, h3, h4, h5],
    fun h1 h2 h3 h4 h5 h6 => by simp [register, h1, h2, h3, h4, h5, h6],
    fun h1 h2 h3 h4 h5 h6 h7 => by simp [register, h1, h2, h3, h4, h5, h6, h7],
    fun h1 h2 h3 h4 h5 h6 h7 h8 => by
      simp [register, h1, h2, h3, h4, h5, h6, h7, h8],
    fun h1 h2 h3 h4 h5 h6 h7 h8 h9 => by
      simp [register, h1, h2, h3, h4, h5, h6, h7, h8, h9],
    fun hval => ?_⟩
  rcases hfind : findOne store (fieldVal req.username) with _ | u
  · exact Or.inr (by rw [register_valid_none req store hval hfind])
  · exact Or.inl (by rw [register_valid_dup req store hval hfind])

/-- C2 witness: a request with an empty last name is answered by the
lastName presence check. -/
theorem register_validation_order_witness :
    (register ⟨some "u", some "p", some "Jane", some "", some "a@b.co",
        some "1234567890"⟩ []).1 = err 400 "Last Name is required" :=
  (register_validation_order _ _).2.2.1 (by decide) (by decide) (by decide)

/-- C3: login fails 400 when either credential is absent (falsy),
otherwise 404 when no record matches the username, otherwise 401 when
the stored password differs from the supplied one, otherwise succeeds
with 200 and the record; the four cases are exhaustive and mutually
exclusive. -/
theorem login_case_analysis (req : LoginReq) (store : List UserRecord) :
    ((falsy req.username || falsy req.password) = true →
      (login req store).1 = err 400 "Username and password are required") ∧
    ((falsy req.username || falsy req.password) = false →
      findOne store (fieldVal req.username) = none →
      (login req store).1 = err 404 "User not found") ∧
    (∀ u : UserRecord, (falsy req.username || falsy req.password) = false →
      findOne store (fieldVal req.username) = some u →
      u.password ≠ fieldVal req.password →
      (login req store).1 = err 401 "Invalid credentials") ∧
    (∀ u : UserRecord, (falsy req.username || falsy req.password) = false →
      findOne store (fieldVal req.username) = some u →
      u.password = fieldVal req.password →
      (login req store).1 = ⟨200, Body.user u⟩) :=
  ⟨fun h1 => by simp [login, h1],
   fun h1 h2 => by simp [login, h1, h2],
   fun u h1 h2 h3 => by simp [login, h1, h2, beq_iff_eq, h3],
   fun u h1 h2 h3 => by simp [login, h1, h2, beq_iff_eq, h3]⟩

/-- C3 witness: login against the empty store with present credentials
is a 404. -/
theorem login_case_analysis_witness :
    (login ⟨some "jdoe", some "pw1"⟩ []).1 = err 404 "User not found" :=
  (login_case_analysis _ _).2.1 (by decide) rfl

/-- C4: once validation passes, register returns 400 and leaves the
store unchanged when the username already exists, and otherwise inserts
the record and returns it with 201; in particular a second registration
of the same username is answered 400. -/
theorem register_duplicate_behavior (req : RegisterReq) (store : List UserRecord)
    (hval : passesValidation req = true) :
    (∀ u : UserRecord, findOne store (fieldVal req.username) = some u →
      register req store = (err 400 "Username already taken", store)) ∧
    (findOne store (fieldVal req.username) = none →
      register req store = (⟨201, Body.user (mkUser req)⟩, store ++ [mkUser req])) ∧
    (findOne store (fieldVal req.username) = none →
      (register req (register req store).2).1 = err 400 "Username already taken") := by
  refine ⟨fun u hu => register_valid_dup req store hval hu,
    fun hn => register_valid_none req store hval hn,
    fun hn => ?_⟩
  have h2 : (register req store).2 = store ++ [mkUser req] := by
    rw [register_valid_none req store hval hn]
  rw [h2]
  have hfind := findOne_append_none hn (mkUser req)
  simp only [mkUser, beq_self_eq_true, if_true] at hfind
  rw [register_valid_dup req (store ++ [mkUser req]) hval hfind]

/-- C4 witness: registering the Jane Doe request twice on the empty
store yields the duplicate-username 400 on the second attempt. -/
theorem register_duplicate_behavior_witness :
    (register sampleReq (register sampleReq []).2).1 =
      err 400 "Username already taken" :=
  (register_duplicate_behavior sampleReq [] (by decide)).2.2 rfl

/-- C5: every store reachable from the empty store by a sequence of
login and register calls has pairwise distinct usernames, and every
single call preserves that invariant. -/
theorem store_usernames_unique :
    (∀ ops : List Op, distinctUsernames (run ops)) ∧
    (∀ (store : List UserRecord) (op : Op),
      distinctUsernames store → distinctUsernames (step store op)) := by
  refine ⟨fun ops => ?_, fun store op h => step_preserves_distinct store op h⟩
  exact foldl_step_distinct ops [] List.Pairwise.nil

/-- C5 witness: one register call on the empty store preserves the
uniqueness invariant. -/
theorem store_usernames_unique_witness :
    distinctUsernames (step [] (Op.register sampleReq)) :=
  store_usernames_unique.2 [] (Op.register sampleReq) List.Pairwise.nil

/-- C6: any firstName containing a digit or a space draws the
first-name-format message whatever the other fields are; lastName
`O'Brien-Smith` passes and `Smith2` fails the lastName regex; `a@b.co`
passes and `a@b` fails the email regex; `1234567890` passes and `12345`
fails the phone regex. -/
theorem validation_concrete_cases :
    (∀ (req : RegisterReq) (store : List UserRecord) (s : String),
      req.firstName = some s →
      s.data.any (fun c => isDigitChar c || c.toNat == 32) = true →
      (register req store).1 = err 400 "First Name should contain only letters") ∧
    lnameMatch ("O" ++ (Char.ofNat 39).toString ++ "Brien-Smith") = true ∧
    lnameMatch "Smith2" = false ∧
    emailTest "a@b.co" = true ∧
    emailTest "a@b" = false ∧
    phoneMatch "1234567890" = true ∧
    phoneMatch "12345" = false :=
  ⟨fun req store s hf h => fname_digit_or_space_rejected req store s hf h,
   by decide, by decide, by decide, by decide, by decide, by decide⟩

/-- C6 witness: the firstName `J4ne` (it contains a digit) is rejected
with the format message. -/
theorem validation_concrete_cases_witness :
    (register ⟨some "u", some "p", some "J4ne", some "Doe", some "a@b.co",
        some "1234567890"⟩ []).1 =
      err 400 "First Name should contain only letters" :=
  validation_concrete_cases.1 _ [] "J4ne" rfl (by decide)

/-- C7: login never modifies the store, and register either leaves the
store unchanged or returns 201 and appends the new record at the end,
so existing records are never updated or deleted. -/
theorem store_frame (lreq : LoginReq) (rreq : RegisterReq)
    (store : List UserRecord) :
    (login lreq store).2 = store ∧
    ((register rreq store).2 = store ∨
      ((register rreq store).1 = ⟨201, Body.user (mkUser rreq)⟩ ∧
        (register rreq store).2 = store ++ [mkUser rreq])) := by
  refine ⟨login_store_unchanged lreq store, ?_⟩
  rcases register_cases rreq store with h | ⟨h1, -, h2⟩
  · exact Or.inl h
  · exact Or.inr ⟨h1, h2⟩

/-- C8: a login that answers 200 answers with exactly the record that
the username lookup found in the store, password field included. -/
theorem login_success_full_record (req : LoginReq) (store : List UserRecord)
    (h : (login req store).1.status = 200) :
    ∃ u : UserRecord, findOne store (fieldVal req.username) = some u ∧
      (login req store).1 = ⟨200, Body.user u⟩ ∧
      u.password = fieldVal req.password := by
  by_cases hc : (falsy req.username || falsy req.password) = true
  · simp [login, hc, err] at h
  · have hc2 : (falsy req.username || falsy req.password) = false := by
      simpa using hc
    rcases hfind : findOne store (fieldVal req.username) with _ | u
    · simp [login, hc2, hfind, err] at h
    · by_cases hp : u.password = fieldVal req.password
      · exact ⟨u, rfl, by simp [login, hc2, hfind, beq_iff_eq, hp], hp⟩
      · simp [login, hc2, hfind, beq_iff_eq, hp, err] at h

/-- C8 witness: a successful login against a one-record store returns
that record with its plain-text password. -/
theorem login_success_full_record_witness :
    ∃ u : UserRecord, findOne [mkUser sampleReq] "jdoe" = some u ∧
      (login ⟨some "jdoe", some "pw1"⟩ [mkUser sampleReq]).1 =
        ⟨200, Body.user u⟩ ∧
      u.password = "pw1" :=
  login_success_full_record ⟨some "jdoe", some "pw1"⟩ [mkUser sampleReq]
    (by decide)

/-- C9: a field supplied as the empty string behaves exactly like an
absent field: login answers the missing-credentials 400 for every store
(no lookup is consulted), each register call with an empty field equals
the call with that field absent, and the answer is the presence message
of the field, not its format message. -/
theorem empty_string_like_absent (p q : Option String) (req : RegisterReq)
    (store : List UserRecord) :
    login ⟨some "", p⟩ store = login ⟨none, p⟩ store ∧
    (login ⟨some "", p⟩ store).1 =
      err 400 "Username and password are required" ∧
    login ⟨q, some ""⟩ store = login ⟨q, none⟩ store ∧
    (login ⟨q, some ""⟩ store).1 =
      err 400 "Username and password are required" ∧
    register { req with firstName := some "" } store =
      register { req with firstName := none } store ∧
    register { req with lastName := some "" } store =
      register { req with lastName := none } store ∧
    register { req with email := some "" } store =
      register { req with email := none } store ∧
    register { req with phone := some "" } store =
      register { req with phone := none } store ∧
    register { req with username := some "" } store =
      register { req with username := none } store ∧
    register { req with password := some "" } store =
      register { req with password := none } store ∧
    (register { req with firstName := some "" } store).1 =
      err 400 "First name is required" ∧
    (register ⟨some "jdoe", some "pw1", some "Jane", some "",
        some "jane@doe.com", some "5551234567"⟩ []).1 =
      err 400 "Last Name is required" ∧
    (register ⟨some "jdoe", some "pw1", some "Jane", some "Doe",
        some "", some "5551234567"⟩ []).1 =
      err 400 "Email is required" ∧
    (register ⟨some "jdoe", some "pw1", some "Jane", some "Doe",
        some "jane@doe.com", some ""⟩ []).1 =
      err 400 "Phone Number is required" ∧
    (register ⟨some "", some "pw1", some "Jane", some "Doe",
        some "jane@doe.com", some "5551234567"⟩ []).1 =
      err 400 "Username and password are required" ∧
    (register ⟨some "jdoe", some "", some "Jane", some "Doe",
        some "jane@doe.com", some "5551234567"⟩ []).1 =
      err 400 "Username and password are required" := by
  refine ⟨?_, ?_, ?_, ?_, ?_, ?_, ?_, ?_, ?_, ?_, ?_,
    by decide, by decide, by decide, by decide, by decide⟩ <;>
    simp [login, register, falsy_some_nil, falsy_none]

/-- C10: the email regex only accepts a single domain label before the
2-to-6-character top-level domain: every accepted address decomposes as
`local @ label . tld` with no further dot, the multi-label address
`a@mail.example.com` is rejected (the single-label `a@example.com` is
accepted), and a register request carrying it draws the email-format
400. -/
theorem email_single_label_only :
    (∀ l : List Char, emailMatch l = true →
      ∃ loc lab tld : List Char,
        l = loc ++ '@' :: (lab ++ '.' :: tld) ∧
        loc ≠ [] ∧ loc.all isLocalChar = true ∧
        lab ≠ [] ∧ lab.all isLabelChar = true ∧
        2 ≤ tld.length ∧ tld.length ≤ 6 ∧ tld.all isWordChar = true) ∧
    emailTest "a@mail.example.com" = false ∧
    emailTest "a@example.com" = true ∧
    (∀ (req : RegisterReq) (store : List UserRecord),
      req.email = some "a@mail.example.com" →
      falsy req.firstName = false →
      fnameMatch (fieldVal req.firstName) = true →
      falsy req.lastName = false →
      lnameMatch (fieldVal req.lastName) = true →
      (register req store).1 = err 400 "Email format is invalid") := by
  refine ⟨emailMatch_decomp, by decide, by decide, ?_⟩
  intro req store he h1 h2 h3 h4
  have h5 : falsy req.email = false := by
    rw [he]
    decide
  have h6 : emailTest (fieldVal req.email) = false := by
    rw [he]
    decide
  simp [register, h1, h2, h3, h4, h5, h6]

/-- C10 witness: a request whose email is `a@mail.example.com` draws the
email-format 400. -/
theorem email_single_label_only_witness :
    (register ⟨some "u", some "p", some "Jane", some "Doe",
        some "a@mail.example.com", some "1234567890"⟩ []).1 =
      err 400 "Email format is invalid" :=
  email_single_label_only.2.2.2 _ [] rfl (by decide) (by decide)
    (by decide) (by decide)

end BoxingTracker
